import Mathlib

/-!
Verification development for the clandestine2 IRC server core.

Strings of the Rust source are modelled as lists of characters
(abbreviated `Str`).  Each definition embeds the Rust item named in its
doc comment; stateful code is embedded as explicit state passing, and
calls to the clock (`Utc::now()`, `generate_ts()`) take the current time
as an explicit parameter.
-/

namespace Clandestine

abbrev Str := List Char

/-- Rust `str::starts_with(c)` on our character-list strings. -/
def charStartsWith (c : Char) : Str → Bool
  | [] => false
  | d :: _ => d = c

/-- Rust `str::splitn(2, sep)`: the text before the first separator, and
`some` remainder when a separator occurs (`none` otherwise). -/
def splitn2 (sep : Char) : Str → Str × Option Str
  | [] => ([], none)
  | c :: cs =>
      if c = sep then ([], some cs)
      else
        let r := splitn2 sep cs
        (c :: r.1, r.2)

/-- Rust `str::split(sep)`: splits at every separator; the empty string
yields one empty chunk, and separators at the ends yield empty chunks. -/
def splitAll (sep : Char) : Str → List Str
  | [] => [[]]
  | c :: cs =>
      if c = sep then [] :: splitAll sep cs
      else
        match splitAll sep cs with
        | [] => [[c]]
        | t :: ts => (c :: t) :: ts

/-- Rust `str::split_once(sep)`: text before and after the first
separator, `none` when the separator does not occur. -/
def splitOnce (sep : Char) : Str → Option (Str × Str)
  | [] => none
  | c :: cs =>
      if c = sep then some ([], cs)
      else
        match splitOnce sep cs with
        | none => none
        | some (a, b) => some (c :: a, b)

/-- Rust `[String]::join(sep)` for a one-character separator. -/
def joinSep (sep : Char) : List Str → Str
  | [] => []
  | [s] => s
  | s :: ss => s ++ sep :: joinSep sep ss

/-- The parsed line record `TS6Message` (src/ts6/mod.rs).  The tag
`HashMap` is modelled as an association list in insertion order. -/
structure TS6Message where
  tags : List (Str × Str)
  source : Option Str
  command : Str
  params : List Str
deriving DecidableEq

/-- `TS6Message::new` (src/ts6/mod.rs). -/
def TS6Message.new (command : Str) (params : List Str) : TS6Message :=
  ⟨[], none, command, params⟩

/-- `TS6Message::with_source` (src/ts6/mod.rs). -/
def TS6Message.with_source (source command : Str) (params : List Str) : TS6Message :=
  ⟨[], some source, command, params⟩

/-- `HashMap::insert` on the association-list model of the tag map:
replaces the value at an existing key, otherwise appends. -/
def mapInsert (m : List (Str × Str)) (k v : Str) : List (Str × Str) :=
  match m with
  | [] => [(k, v)]
  | (k0, v0) :: rest =>
      if k0 = k then (k, v) :: rest else (k0, v0) :: mapInsert rest k v

/-- The tag-block loop of `parse_message` (src/ts6/parser.rs lines
23-27): `;`-separated entries, each kept only when it has a `=`. -/
def parseTags (s : Str) : List (Str × Str) :=
  (splitAll ';' s).foldl
    (fun acc tag =>
      match splitOnce '=' tag with
      | some (k, v) => mapInsert acc k v
      | none => acc)
    []

/-- The state-machine loop inside `parse_params` (src/ts6/parser.rs lines
69-79), processing the space-split tokens with the accumulated plain
params, the trailing accumulator and the `in_trailing` flag. -/
def ppLoop : List Str → List Str → Str → Bool → List Str
  | [], params, trailing, in_trailing =>
      if in_trailing then params ++ [trailing] else params
  | part :: rest, params, trailing, in_trailing =>
      if charStartsWith ':' part then ppLoop rest params (trailing ++ part.tail) true
      else if in_trailing then ppLoop rest params (trailing ++ ' ' :: part) in_trailing
      else ppLoop rest (params ++ [part]) trailing in_trailing

/-- `parse_params` (src/ts6/parser.rs lines 63-86). -/
def parse_params (s : Str) : List Str :=
  ppLoop (splitAll ' ' s) [] [] false

/-- The command-and-params step shared by both branches of
`parse_message` (src/ts6/parser.rs lines 44-60). -/
def mkMsg (tags : List (Str × Str)) (source : Option Str) (rest2 : Str) : TS6Message :=
  let cr := splitn2 ' ' rest2
  { tags := tags
    source := source
    command := cr.1
    params :=
      match cr.2 with
      | some ps => parse_params ps
      | none => [] }

/-- The source-prefix step of `parse_message` (src/ts6/parser.rs lines
32-42), run after the tag block has been removed. -/
def parseAfterTags (tags : List (Str × Str)) (rest : Str) : Except String TS6Message :=
  if charStartsWith ':' rest then
    match splitn2 ' ' rest with
    | (_, none) => .error "Missing command after source"
    | (srcTok, some r2) => .ok (mkMsg tags (some srcTok.tail) r2)
  else .ok (mkMsg tags none rest)

/-- `parse_message` (src/ts6/parser.rs lines 7-61): reject the empty
line; when the line starts with `@`, split the tag block off the text
after the `@` and fail when no space follows it. -/
def parse_message (line : Str) : Except String TS6Message :=
  if line = [] then .error "Empty message"
  else if charStartsWith '@' line then
    match splitn2 ' ' line.tail with
    | (_, none) => .error "Failed to parse message tags"
    | (tagStr, some r) => parseAfterTags (parseTags tagStr) r
  else parseAfterTags [] line

/-- The parameter section of `TS6Message::to_string` (src/ts6/mod.rs
lines 52-65): every param but the last is emitted verbatim, the last is
always emitted with a leading colon. -/
def paramParts : List Str → List Str
  | [] => []
  | [p] => [':' :: p]
  | p :: ps => p :: paramParts ps

/-- `TS6Message::to_string` (src/ts6/mod.rs lines 40-68).  Note the Rust
method pushes the optional `:source`, the command, then the params; it
never emits the tag map. -/
def TS6Message.to_string (m : TS6Message) : Str :=
  joinSep ' '
    ((match m.source with
      | some s => [':' :: s]
      | none => [])
      ++ [m.command] ++ paramParts m.params)

/-- Specification helper for the trailing accumulator of `ppLoop` once
`in_trailing` has been entered: each colon-initial token is appended
without its colon and without a space, every other token with a space. -/
def ppTrail (tr : Str) : List Str → Str
  | [] => tr
  | part :: rest =>
      if charStartsWith ':' part then ppTrail (tr ++ part.tail) rest
      else ppTrail (tr ++ ' ' :: part) rest

/-- Specification helper: the chunks of a split string after the first,
each rejoined behind a space. -/
def joinPre : List Str → Str
  | [] => []
  | c :: cs => ' ' :: (c ++ joinPre cs)

/-! ## Generic container models

Rust `HashMap` fields are modelled as association lists (insert replaces
the value at an existing key), `HashSet` fields as duplicate-free lists
(insert appends when absent, remove filters).  Claims never depend on
iteration order; where the source iterates a `HashSet` the model uses
insertion order, one of the orders the source may produce. -/

/-- `HashMap` lookup on the association-list model. -/
def alookup {β : Type} (k : Str) : List (Str × β) → Option β
  | [] => none
  | (k0, v) :: rest => if k0 = k then some v else alookup k rest

/-- `HashMap` lookup keyed by client id. -/
def nlookup {β : Type} (k : Nat) : List (Nat × β) → Option β
  | [] => none
  | (k0, v) :: rest => if k0 = k then some v else nlookup k rest

/-- `HashMap` lookup keyed by a mode character. -/
def clookup {β : Type} (k : Char) : List (Char × β) → Option β
  | [] => none
  | (k0, v) :: rest => if k0 = k then some v else clookup k rest

/-- `HashMap::insert` keyed by strings. -/
def ainsert {β : Type} (k : Str) (v : β) : List (Str × β) → List (Str × β)
  | [] => [(k, v)]
  | (k0, v0) :: rest => if k0 = k then (k, v) :: rest else (k0, v0) :: ainsert k v rest

/-- `HashMap::insert` keyed by a mode character. -/
def cinsert {β : Type} (k : Char) (v : β) : List (Char × β) → List (Char × β)
  | [] => [(k, v)]
  | (k0, v0) :: rest => if k0 = k then (k, v) :: rest else (k0, v0) :: cinsert k v rest

/-- `HashMap::remove` keyed by strings. -/
def aremove {β : Type} (k : Str) (m : List (Str × β)) : List (Str × β) :=
  m.filter (fun e => e.1 ≠ k)

/-- `HashMap::remove` keyed by client id. -/
def nremove {β : Type} (k : Nat) (m : List (Nat × β)) : List (Nat × β) :=
  m.filter (fun e => e.1 ≠ k)

/-- `HashMap::remove` keyed by a mode character. -/
def cremove {β : Type} (k : Char) (m : List (Char × β)) : List (Char × β) :=
  m.filter (fun e => e.1 ≠ k)

/-- `HashSet::insert` on the list model. -/
def sinsert {α : Type} [DecidableEq α] (x : α) (xs : List α) : List α :=
  if x ∈ xs then xs else xs ++ [x]

/-- `HashSet::remove` on the list model. -/
def sremove {α : Type} [DecidableEq α] (x : α) (xs : List α) : List α :=
  xs.filter (fun y => y ≠ x)

/-- Rust `str::to_lowercase`, restricted to the ASCII range that
nicknames use (`Char.toLower` lowercases exactly the ASCII letters). -/
def toLowerStr (s : Str) : Str :=
  s.map Char.toLower

/-! ## Channel object (src/channel/mod.rs) -/

/-- `Ban` (src/channel/mod.rs lines 40-44); `set_time` models the
`DateTime<Utc>` stamp as seconds. -/
structure Ban where
  mask : Str
  set_by : Str
  set_time : Nat
deriving DecidableEq

/-- `Channel` (src/channel/mod.rs lines 10-20). -/
structure Channel where
  name : Str
  topic : Option Str
  topic_setter : Option Str
  topic_time : Nat
  members : List Nat
  modes : List Char
  mode_params : List (Char × Str)
  created_at : Nat
  bans : List Ban
deriving DecidableEq

/-- `Channel::set_mode` (src/channel/mod.rs lines 96-106): adding
inserts the flag and then stores the parameter when one is given;
removing drops both the flag and any stored parameter. -/
def Channel.set_mode (ch : Channel) (mode : Char) (param : Option Str) (adding : Bool) : Channel :=
  if adding then
    let ch1 := { ch with modes := sinsert mode ch.modes }
    match param with
    | some p => { ch1 with mode_params := cinsert mode p ch1.mode_params }
    | none => ch1
  else
    { ch with modes := sremove mode ch.modes, mode_params := cremove mode ch.mode_params }

/-- `Channel::new` (src/channel/mod.rs lines 47-66): empty state stamped
with the current time, then default modes set through `set_mode`. -/
def Channel.new (name : Str) (now : Nat) : Channel :=
  let base : Channel :=
    { name := name, topic := none, topic_setter := none, topic_time := now
      members := [], modes := [], mode_params := [], created_at := now, bans := [] }
  (base.set_mode 'n' none true).set_mode 't' none true

/-- `Channel::add_member` (src/channel/mod.rs lines 72-76). -/
def Channel.add_member (ch : Channel) (client_id : Nat) : Channel :=
  { ch with members := sinsert client_id ch.members }

/-- `Channel::remove_member` (src/channel/mod.rs lines 78-82). -/
def Channel.remove_member (ch : Channel) (client_id : Nat) : Channel :=
  { ch with members := sremove client_id ch.members }

/-- `Channel::get_modes` (src/channel/mod.rs lines 88-94): pushes every
mode character of the `HashSet` into a string; the model iterates in
insertion order. -/
def Channel.get_modes (ch : Channel) : Str :=
  ch.modes

/-- `Channel::set_topic` (src/channel/mod.rs lines 134-139). -/
def Channel.set_topic (ch : Channel) (topic setter : Str) (now : Nat) : Channel :=
  { ch with topic := some topic, topic_setter := some setter, topic_time := now }

/-- `Channel::has_mode` (src/channel/mod.rs lines 145-156). -/
def Channel.has_mode (ch : Channel) (mode : Char) (target : Option Str) : Bool :=
  match target with
  | some nick =>
      match clookup mode ch.mode_params with
      | some param => param = nick
      | none => false
  | none => decide (mode ∈ ch.modes)

/-- `Channel::add_ban` (src/channel/mod.rs lines 112-120). -/
def Channel.add_ban (ch : Channel) (mask set_by : Str) (now : Nat) : Channel :=
  { ch with bans := ch.bans ++ [⟨mask, set_by, now⟩] }

/-- `Channel::remove_ban` (src/channel/mod.rs lines 122-128). -/
def Channel.remove_ban (ch : Channel) (mask : Str) : Channel :=
  { ch with bans := ch.bans.filter (fun b => b.mask ≠ mask) }

/-! ## Client session record (src/client/mod.rs lines 20-33)

The session fields the handlers read.  The queue handles, capability
sets and the stream are irrelevant to the claims and omitted. -/

structure ClientInfo where
  nickname : Option Str
  username : Option Str
  hostname : Str
  registered : Bool
  cap_negotiating : Bool
deriving DecidableEq

/-- `Client::get_prefix` (src/client/mod.rs lines 369-379):
`nick!user@hostname` with the unknown fallbacks. -/
def ClientInfo.prefixMask (c : ClientInfo) : Str :=
  match c.nickname with
  | some nick =>
      match c.username with
      | some user => nick ++ '!' :: user ++ '@' :: c.hostname
      | none => nick ++ ("!unknown@").toList ++ c.hostname
  | none => ("unknown@").toList ++ c.hostname

/-- `Client::get_mask`, whose defining draft is not under src/; it is
modelled after `Server::get_client_mask` (src/server/mod.rs lines
405-411), the in-tree mask construction: `nick!user@hostname` with `*`
fallbacks, matching the glossary entry Mask = nick!user@host. -/
def ClientInfo.get_mask (c : ClientInfo) : Str :=
  (match c.nickname with | some n => n | none => ['*'])
    ++ '!' :: (match c.username with | some u => u | none => ['*'])
    ++ '@' :: c.hostname

/-- `Client::get_ip`, whose accessor is not under src/; `Client::new`
(src/client/mod.rs line 49) stores the string form of the peer address
in `hostname`, which this accessor returns. -/
def ClientInfo.get_ip (c : ClientInfo) : Str :=
  c.hostname

/-! ## Server registry (src/server/mod.rs) -/

/-- The registry maps of `Server` (src/server/mod.rs lines 22-33) that
the claims touch.  Note the struct holds BOTH a `nicknames` map and a
`nickname_map`; the two are distinct fields in the source. -/
structure ServerState where
  clients : List Nat
  client_map : List (Nat × ClientInfo)
  channels : List (Str × Channel)
  nicknames : List (Str × Nat)
  nickname_map : List (Str × Nat)
deriving DecidableEq

/-- `Server::get_channel` (src/server/mod.rs lines 269-272). -/
def get_channel (st : ServerState) (name : Str) : Option Channel :=
  alookup name st.channels

/-- `Server::get_channel_members` (src/server/mod.rs lines 174-182). -/
def get_channel_members (st : ServerState) (channel_name : Str) : List Nat :=
  match get_channel st channel_name with
  | some ch => ch.members
  | none => []

/-- `Server::check_channel_membership` (src/server/mod.rs lines 185-193). -/
def check_channel_membership (st : ServerState) (channel_name : Str) (client_id : Nat) : Bool :=
  match get_channel st channel_name with
  | some ch => decide (client_id ∈ ch.members)
  | none => false

/-- `Server::get_client` (src/server/mod.rs lines 275-278). -/
def get_client (st : ServerState) (id : Nat) : Option ClientInfo :=
  nlookup id st.client_map

/-- `Server::broadcast_to_channel` (src/server/mod.rs lines 195-210):
collects the member ids, then for each member other than `skip_client`
whose session is in the client map, sends the message.  The result is
the delivery list (recipient id paired with the message). -/
def broadcast_to_channel (st : ServerState) (channel_name : Str) (message : TS6Message)
    (skip_client : Option Nat) : List (Nat × TS6Message) :=
  (get_channel_members st channel_name).filterMap fun client_id =>
    if skip_client = some client_id then none
    else
      match get_client st client_id with
      | some _ => some (client_id, message)
      | none => none

/-- `Server::find_client_by_nick` (src/server/mod.rs lines 212-230):
lowercased lookup in `nickname_map`, then resolution through
`client_map`.  Returns the id of the found session handle. -/
def find_client_by_nick (st : ServerState) (nickname : Str) : Option Nat :=
  match alookup (toLowerStr nickname) st.nickname_map with
  | some id =>
      match nlookup id st.client_map with
      | some _ => some id
      | none => none
  | none => none

/-- `Server::get_or_create_channel` (src/server/mod.rs lines 257-266). -/
def get_or_create_channel (st : ServerState) (name : Str) (now : Nat) :
    Channel × ServerState :=
  match alookup name st.channels with
  | some ch => (ch, st)
  | none =>
      let ch := Channel.new name now
      (ch, { st with channels := ainsert name ch st.channels })

/-- `Server::check_nickname` (src/server/mod.rs lines 427-430): reads
the `nicknames` field. -/
def check_nickname (st : ServerState) (nickname : Str) : Bool :=
  !(alookup (toLowerStr nickname) st.nicknames).isSome

/-- `Server::register_nickname` (src/server/registration.rs lines
10-21): writes the `nickname_map` field. -/
def register_nickname (st : ServerState) (nickname : Str) (client_id : Nat) :
    Except Str ServerState :=
  let nickname_lower := toLowerStr nickname
  if (alookup nickname_lower st.nickname_map).isSome then
    .error (("Nickname is already in use").toList)
  else
    .ok { st with nickname_map := ainsert nickname_lower client_id st.nickname_map }

/-- `Server::unregister_nickname` (src/server/registration.rs lines 23-27). -/
def unregister_nickname (st : ServerState) (nickname : Str) : ServerState :=
  { st with nickname_map := aremove (toLowerStr nickname) st.nickname_map }

/-- `Server::remove_client` (src/server/mod.rs lines 292-309): removes
the id from the client list and the client map — and from nothing else
(the source comment reads: could also clean up from channels here if
needed). -/
def remove_client (st : ServerState) (id : Nat) : ServerState :=
  { st with
    clients := st.clients.erase id
    client_map := nremove id st.client_map }

/-! ## Handler effects

A handler run is modelled by the list of frames it emits: numeric
replies to the issuing session (`Client::send_numeric`,
src/client/numeric.rs) and messages delivered to other sessions
(`Client::send_message` on the recipient). -/

inductive Effect where
  | numeric (code : Nat) (params : List Str)
  | deliver (target : Nat) (msg : TS6Message)
deriving DecidableEq

/-- `Client::handle_privmsg` (src/client/commands/query.rs lines
153-198). -/
def handle_privmsg (st : ServerState) (selfId : Nat) (c : ClientInfo)
    (message : TS6Message) : Except Str (List Effect) :=
  if !c.registered then .error (("You must register first").toList)
  else
    match message.params.get? 0, message.params.get? 1 with
    | some target, some text =>
        if charStartsWith '#' target then
          if !check_channel_membership st target selfId then
            .ok [.numeric 442 [target, ("You\x27re not on that channel").toList]]
          else
            let msg := TS6Message.with_source c.prefixMask (("PRIVMSG").toList) [target, text]
            .ok ((broadcast_to_channel st target msg (some selfId)).map
              fun p => Effect.deliver p.1 p.2)
        else
          match find_client_by_nick st target with
          | some targetId =>
              .ok [.deliver targetId
                (TS6Message.with_source c.prefixMask (("PRIVMSG").toList) [target, text])]
          | none => .ok [.numeric 401 [target, ("No such nick/channel").toList]]
    | _, _ => .error (("Not enough parameters").toList)

/-- `Client::handle_topic` (src/client/commands/channel.rs lines
110-147).  With a second parameter present it sets the topic and
broadcasts, with no check of channel mode `t` or of operator status;
without one it replies 332/333 or 331. -/
def handle_topic (st : ServerState) (_selfId : Nat) (c : ClientInfo)
    (message : TS6Message) (now : Nat) : Except Str (ServerState × List Effect) :=
  match message.params.get? 0 with
  | none => .error (("No channel specified").toList)
  | some channel_name =>
      let chSt := get_or_create_channel st channel_name now
      match message.params.get? 1 with
      | some topic =>
          let ch1 := chSt.1.set_topic topic c.get_mask now
          let st2 := { chSt.2 with channels := ainsert channel_name ch1 chSt.2.channels }
          let msg := TS6Message.with_source c.prefixMask (("TOPIC").toList)
            [channel_name, topic]
          .ok (st2, (broadcast_to_channel st2 channel_name msg none).map
            fun p => Effect.deliver p.1 p.2)
      | none =>
          match chSt.1.topic with
          | some topic =>
              .ok (chSt.2,
                [.numeric 332 [channel_name, topic],
                 .numeric 333 [channel_name,
                   (match chSt.1.topic_setter with
                    | some setter => setter
                    | none => ("unknown").toList),
                   (Nat.repr chSt.1.topic_time).toList]])
          | none =>
              .ok (chSt.2, [.numeric 331 [channel_name, ("No topic is set").toList]])

/-- `Client::complete_registration` (src/client/registration.rs lines
25-58): flips the registered flag and emits the welcome numerics in the
written order.  `date_str` stands for the formatted current date of the
003 line. -/
def complete_registration (c : ClientInfo) (server_name date_str : Str) :
    ClientInfo × List (Nat × List Str) :=
  ({ c with registered := true },
   [ (1, [("Welcome to ").toList ++ server_name ++ ' ' :: c.get_mask]),
     (2, [("Your host is ").toList ++ server_name ++ (", running ircd-rs v0.1.0").toList]),
     (3, [("This server was created ").toList ++ date_str]),
     (4, [server_name, ("ircd-rs-0.1.0").toList, ("iowghraAsORTVSxNCWqBzvdHtGp").toList,
          ("bkloveqjfI").toList, ("bklov").toList]),
     (5, [("CHANTYPES=# EXCEPTS INVEX CHANMODES=eIbq,k,flj,CFLMPQScgimnprstuz CHANLIMIT=#:100 PREFIX=(ov)@+ MAXLIST=bqeI:100 MODES=4 NETWORK=ExampleNet STATUSMSG=@+ CALLERID=g CASEMAPPING=rfc1459 :are supported by this server").toList]),
     (251, [("There are 0 users and 0 invisible on 1 server").toList]),
     (252, [("0").toList, ("operator(s) online").toList]),
     (254, [("0").toList, ("channels formed").toList]),
     (255, [("I have 1 clients and 0 servers").toList]),
     (265, [("Current local users: 1, Max: 1").toList]),
     (266, [("Current global users: 1, Max: 1").toList]),
     (375, [("- Message of the day").toList]),
     (372, [("- Welcome to IRCd-rs!").toList]),
     (376, [("End of /MOTD command.").toList]) ])

/-- The numeric codes `complete_registration` emits, in emission order. -/
def registration_numeric_codes (c : ClientInfo) (server_name date_str : Str) : List Nat :=
  ((complete_registration c server_name date_str).2).map Prod.fst

/-- `Client::check_registration` (src/client/registration.rs lines
9-23). -/
def check_registration (c : ClientInfo) (server_name date_str : Str) :
    ClientInfo × List (Nat × List Str) :=
  if !c.registered && c.nickname.isSome && c.username.isSome && !c.cap_negotiating then
    complete_registration c server_name date_str
  else (c, [])

/-- `Client::handle_nick` (src/client/commands/user.rs lines 7-60).
`broadcast_global` is a stub in the source (src/server/mod.rs lines
162-166) and contributes no frames. -/
def handle_nick (st : ServerState) (selfId : Nat) (c : ClientInfo)
    (message : TS6Message) (server_name date_str : Str) :
    Except Str (ServerState × ClientInfo × List Effect) :=
  if c.cap_negotiating then
    .error (("Must complete capability negotiation first (CAP END)").toList)
  else
    match message.params.get? 0 with
    | none => .error (("No nickname given").toList)
    | some new_nick =>
        if !(new_nick.all fun ch => ch.isAlphanum || ch = '_' || ch = '-') then
          .error (("Invalid nickname").toList)
        else if !check_nickname st new_nick then
          .ok (st, c, [.numeric 433 [new_nick, ("Nickname is already in use").toList]])
        else
          let st1 :=
            match c.nickname with
            | some old_nick => unregister_nickname st old_nick
            | none => st
          match register_nickname st1 new_nick selfId with
          | .error _ =>
              .ok (st1, c, [.numeric 433 [new_nick, ("Nickname is already in use").toList]])
          | .ok st2 =>
              let c1 := { c with nickname := some new_nick }
              let reg := check_registration c1 server_name date_str
              .ok (st2, reg.1, reg.2.map fun e => Effect.numeric e.1 e.2)

/-! ## Command dispatch -/

inductive DispatchOutcome where
  /-- the named command handler runs -/
  | handler (name : Str)
  /-- `handle_cap` runs -/
  | capHandler
  /-- buffered-and-dropped during CAP negotiation -/
  | buffered
  /-- the inline PONG response of src/client/mod.rs lines 112-118 -/
  | pongReply
  /-- bare `Ok(())` -/
  | okNoop
  /-- `send_numeric(code, ...)` -/
  | numericReply (code : Nat)
  /-- `Err(IrcError::Protocol(reason))` -/
  | protocolError (reason : Str)
deriving DecidableEq

/-- The dispatcher `Client::handle_message` of src/client/message.rs
lines 25-89.  It receives no registration flag at all: apart from the
CAP-negotiation buffering, every known command is routed to its handler
and unknown commands get numeric 421. -/
def dispatch_message (cap_negotiating : Bool) (command : Str) : DispatchOutcome :=
  if command = ("CAP").toList then .capHandler
  else if cap_negotiating then
    if command = ("QUIT").toList then .handler command else .buffered
  else if command ∈ [("NICK").toList, ("USER").toList, ("QUIT").toList, ("JOIN").toList,
      ("PART").toList, ("WHOIS").toList, ("PING").toList, ("PONG").toList, ("MODE").toList,
      ("PRIVMSG").toList, ("NOTICE").toList, ("MOTD").toList, ("LUSERS").toList,
      ("VERSION").toList, ("ADMIN").toList, ("INFO").toList, ("WHO").toList] then
    .handler command
  else .numericReply 421

/-- The dispatcher `Client::handle_message` of src/client/mod.rs lines
109-133: CAP, PING, PONG, NICK and USER are matched first; then a guard
rejects every other command from an unregistered session with
`Err(Protocol("Not registered"))`; QUIT and JOIN are reachable only when
registered, and the rest get numeric 421. -/
def dispatch_mod (registered : Bool) (command : Str) : DispatchOutcome :=
  if command = ("CAP").toList then .capHandler
  else if command = ("PING").toList then .pongReply
  else if command = ("PONG").toList then .okNoop
  else if command = ("NICK").toList then .handler command
  else if command = ("USER").toList then .handler command
  else if !registered then .protocolError (("Not registered").toList)
  else if command = ("QUIT").toList then .handler command
  else if command = ("JOIN").toList then .handler command
  else .numericReply 421

/-! ## Access policy (src/server/mod.rs lines 311-402, src/config.rs) -/

/-- `KLine` (src/config.rs lines 79-87); times are seconds. -/
structure KLine where
  mask : Str
  reason : Str
  set_by : Str
  duration : Int
  set_time : Int
deriving DecidableEq

/-- `DLine` (src/config.rs lines 90-98); the `IpAddr` is modelled by its
string form. -/
structure DLine where
  ip : Str
  reason : Str
  set_by : Str
  duration : Int
  set_time : Int
deriving DecidableEq

/-- `GLine` (src/config.rs lines 101-109). -/
structure GLine where
  mask : Str
  reason : Str
  set_by : Str
  duration : Int
  set_time : Int
deriving DecidableEq

/-- `ILine` (src/config.rs lines 111-116); the connection-class field is
named `cls` because the Rust field name is a Lean keyword. -/
structure ILine where
  mask : Str
  password : Option Str
  cls : Str
  max_connections : Nat
deriving DecidableEq

/-- The fields of `AccessConfig` (src/config.rs lines 61-77) that
`check_access` reads. -/
structure AccessConfig where
  klines : List KLine
  dlines : List DLine
  glines : List GLine
  ilines : List ILine
deriving DecidableEq

/-- `Server::is_ban_expired` (src/server/mod.rs lines 385-390):
duration 0 is permanent, otherwise expired once more than `duration`
seconds have passed since `set_time`. -/
def is_ban_expired (set_time duration now : Int) : Bool :=
  if duration = 0 then false else now - set_time > duration

/-- `Server::mask_match` (src/server/mod.rs lines 392-402).  The source
rewrites the mask into an anchored regex: `*` becomes `.*`, `?` becomes
`.`, brackets are escaped to literals, and every other character stands
for itself except `.`, which is the regex any-character.  This matcher
implements that regex semantics directly (masks containing further
regex metacharacters are outside the model). -/
def mask_match (host mask : Str) : Bool :=
  match mask, host with
  | [], [] => true
  | [], _ :: _ => false
  | '*' :: ps, hs =>
      mask_match hs ps ||
        (match hs with
         | [] => false
         | _ :: hs2 => mask_match hs2 ('*' :: ps))
  | _ :: _, [] => false
  | p :: ps, h :: hs => (p = '?' || p = '.' || p = h) && mask_match hs ps
termination_by (host.length, mask.length)

/-- `Server::is_dlined` (src/server/mod.rs lines 335-342). -/
def is_dlined (cfg : AccessConfig) (ip : Str) (now : Int) : Option DLine :=
  cfg.dlines.find? fun d => d.ip = ip && !is_ban_expired d.set_time d.duration now

/-- `Server::is_klined` (src/server/mod.rs lines 344-351). -/
def is_klined (cfg : AccessConfig) (mask : Str) (now : Int) : Option KLine :=
  cfg.klines.find? fun k =>
    mask_match mask k.mask && !is_ban_expired k.set_time k.duration now

/-- `Server::is_glined` (src/server/mod.rs lines 353-360). -/
def is_glined (cfg : AccessConfig) (mask : Str) (now : Int) : Option GLine :=
  cfg.glines.find? fun g =>
    mask_match mask g.mask && !is_ban_expired g.set_time g.duration now

/-- `Server::has_iline` (src/server/mod.rs lines 362-366): no expiry
check, I-lines carry no duration. -/
def has_iline (cfg : AccessConfig) (mask : Str) : Bool :=
  cfg.ilines.any fun i => mask_match mask i.mask

/-- `Server::check_access` (src/server/mod.rs lines 311-333): D-lines
by IP, then K-lines, then G-lines by mask, then at least one I-line is
required. -/
def check_access (cfg : AccessConfig) (c : ClientInfo) (now : Int) : Except Str Unit :=
  match is_dlined cfg c.get_ip now with
  | some dline => .error (("D-lined: ").toList ++ dline.reason)
  | none =>
      match is_klined cfg c.get_mask now with
      | some kline => .error (("K-lined: ").toList ++ kline.reason)
      | none =>
          match is_glined cfg c.get_mask now with
          | some gline => .error (("G-lined: ").toList ++ gline.reason)
          | none =>
              if !has_iline cfg c.get_mask then
                .error (("No matching I-line").toList)
              else .ok ()

/-! ## JOIN of a fresh channel and the MODE query (claim C9) -/

/-- The membership-and-operator step of `Client::handle_join`
(src/client/commands/channel.rs lines 21-41): record whether the
channel was empty, add the member, and for the first joiner call
`set_mode` with `o` and the nickname on the channel. -/
def join_first_grant (ch : Channel) (selfId : Nat) (nick : Str) : Channel :=
  let is_first := ch.members.isEmpty
  let ch1 := ch.add_member selfId
  if is_first then ch1.set_mode 'o' (some nick) true else ch1

/-- The 324 mode-string argument of the MODE query
(src/client/commands/channel.rs lines 185-191): a plus sign followed by
`get_modes`. -/
def mode_query_reply (ch : Channel) : Str :=
  '+' :: ch.get_modes

/-! ## Reachable channel states (claim C10) -/

/-- The public channel operations of src/channel/mod.rs. -/
inductive ChanOp where
  | addMember (id : Nat)
  | removeMember (id : Nat)
  | setMode (mode : Char) (param : Option Str) (adding : Bool)
  | addBan (mask set_by : Str) (now : Nat)
  | removeBan (mask : Str)
  | setTopic (topic setter : Str) (now : Nat)
deriving DecidableEq

def applyOp (ch : Channel) : ChanOp → Channel
  | .addMember id => ch.add_member id
  | .removeMember id => ch.remove_member id
  | .setMode m p a => ch.set_mode m p a
  | .addBan m s n => ch.add_ban m s n
  | .removeBan m => ch.remove_ban m
  | .setTopic t s n => ch.set_topic t s n

def applyOps (ch : Channel) (ops : List ChanOp) : Channel :=
  ops.foldl applyOp ch

/-- The claim C10 invariant: every mode character with a stored
parameter is present in the mode set. -/
def ParamsSubModes (ch : Channel) : Prop :=
  ∀ e ∈ ch.mode_params, e.1 ∈ ch.modes

/-! ## Concrete fixtures used by the closed theorems -/

/-- A registered session alice, id 1. -/
def aliceC : ClientInfo :=
  ⟨some (("alice").toList), some (("alice").toList), ("ha").toList, true, false⟩

/-- A registered session bob, id 2. -/
def bobC : ClientInfo :=
  ⟨some (("bob").toList), some (("bob").toList), ("hb").toList, true, false⟩

/-- A freshly accepted, unregistered session. -/
def freshC : ClientInfo :=
  ⟨none, none, ("hc").toList, false, false⟩

/-- The channel `#test` as produced by alice (id 1) creating it and bob
(id 2) joining: default modes plus the creator operator grant. -/
def roomT : Channel :=
  (join_first_grant (Channel.new (("#test").toList) 0) 1 (("alice").toList)).add_member 2

/-- Registry state for the claim C2 run: alice and bob connected, both
members of `#test`. -/
def stC2 : ServerState :=
  ⟨[1, 2], [(1, aliceC), (2, bobC)], [((("#test").toList), roomT)], [],
   [((("alice").toList), 1), ((("bob").toList), 2)]⟩

/-- Non-operator bob sends `TOPIC #test :hi` on the `+t` channel. -/
def c2_run : Except Str (ServerState × List Effect) :=
  handle_topic stC2 2 bobC ⟨[], none, ("TOPIC").toList, [("#test").toList, ("hi").toList]⟩ 100

/-- The topic of `#test` after the claim C2 run. -/
def c2_topic_after : Option (Option Str) :=
  match c2_run with
  | .ok (st2, _) => (alookup (("#test").toList) st2.channels).map fun ch => ch.topic
  | .error _ => none

/-- Whether the claim C2 run replied with numeric 482. -/
def c2_replied_482 : Bool :=
  match c2_run with
  | .ok (_, effs) =>
      effs.any fun e =>
        match e with
        | .numeric 482 _ => true
        | _ => false
  | .error _ => false

/-- Registry state for claim C4: alice (id 1) holds her nickname and is
the sole member of `#room`. -/
def stC4 : ServerState :=
  ⟨[1], [(1, aliceC)], [((("#room").toList), (Channel.new (("#room").toList) 0).add_member 1)],
   [], [((("alice").toList), 1)]⟩

/-- Registry state for claim C5, as produced by a successful
`register_nickname` of alice: the reservation lives in `nickname_map`
while the `nicknames` field stays empty. -/
def stC5 : ServerState :=
  ⟨[1], [(1, aliceC)], [], [], [((("alice").toList), 1)]⟩

/-- The channel of claim C9 right after its first join. -/
def room9 : Channel :=
  join_first_grant (Channel.new (("#room").toList) 0) 1 (("alice").toList)

/-- A permanent D-line fixture for the claim C7 witness. -/
def dl7 : DLine :=
  ⟨("9.8.7.6").toList, ("bots").toList, ("oper").toList, 0, 0⟩

/-- Access configuration holding only `dl7`. -/
def cfg7 : AccessConfig :=
  ⟨[], [dl7], [], []⟩

/-- A client whose peer address matches `dl7`. -/
def c7client : ClientInfo :=
  ⟨some (("eve").toList), some (("eve").toList), ("9.8.7.6").toList, false, false⟩

/-! ## Shared helper lemmas -/

theorem nlookup_nremove {β : Type} (k : Nat) (m : List (Nat × β)) :
    nlookup k (nremove k m) = none := by
  induction m with
  | nil => rfl
  | cons e rest ih =>
      by_cases h : e.1 = k
      · simp [nremove, List.filter, h] at ih ⊢
        simpa [nremove] using ih
      · simp [nremove, List.filter, h] at ih ⊢
        simpa [nlookup, h, nremove] using ih

theorem mem_sinsert_self {α : Type} [DecidableEq α] (x : α) (xs : List α) :
    x ∈ sinsert x xs := by
  unfold sinsert
  by_cases h : x ∈ xs <;> simp [h]

theorem mem_sinsert_of_mem {α : Type} [DecidableEq α] {y : α} (x : α) {xs : List α}
    (h : y ∈ xs) : y ∈ sinsert x xs := by
  unfold sinsert
  by_cases hx : x ∈ xs <;> simp [hx, h]

theorem mem_sremove {α : Type} [DecidableEq α] {y x : α} {xs : List α}
    (h : y ∈ xs) (hne : y ≠ x) : y ∈ sremove x xs := by
  unfold sremove
  simp [List.mem_filter, h, hne]

theorem mem_cinsert {β : Type} {e : Char × β} {k : Char} {v : β} {m : List (Char × β)}
    (h : e ∈ cinsert k v m) : e = (k, v) ∨ e ∈ m := by
  induction m with
  | nil => simpa [cinsert] using h
  | cons e0 rest ih =>
      by_cases hk : e0.1 = k
      · simp [cinsert, hk] at h
        rcases h with h | h
        · exact Or.inl h
        · exact Or.inr (List.mem_cons_of_mem _ h)
      · simp [cinsert, hk] at h
        rcases h with h | h
        · exact Or.inr (by simp [h])
        · rcases ih h with h2 | h2
          · exact Or.inl h2
          · exact Or.inr (List.mem_cons_of_mem _ h2)

theorem mem_cremove {β : Type} {e : Char × β} {k : Char} {m : List (Char × β)}
    (h : e ∈ cremove k m) : e ∈ m ∧ e.1 ≠ k := by
  unfold cremove at h
  simpa [List.mem_filter] using h

theorem broadcast_all_present (st : ServerState) (name : Str) (msg : TS6Message)
    (selfId : Nat)
    (h : ∀ mid ∈ get_channel_members st name, (get_client st mid).isSome) :
    broadcast_to_channel st name msg (some selfId) =
      ((get_channel_members st name).filter fun mid => mid ≠ selfId).map
        fun mid => (mid, msg) := by
  unfold broadcast_to_channel
  have main : ∀ l : List Nat, (∀ mid ∈ l, (get_client st mid).isSome) →
      (l.filterMap fun client_id =>
        if some selfId = some client_id then none
        else
          match get_client st client_id with
          | some _ => some (client_id, msg)
          | none => none) =
      (l.filter fun mid => mid ≠ selfId).map fun mid => (mid, msg) := by
    intro l
    induction l with
    | nil => intro _; simp
    | cons mid rest ih =>
        intro hall
        have hmid := hall mid (by simp)
        have hr := ih fun m hm => hall m (by simp [hm])
        by_cases hms : mid = selfId
        · subst hms
          simpa [List.filterMap_cons, ne_eq, decide_not] using hr
        · obtain ⟨ci, hci⟩ := Option.isSome_iff_exists.mp hmid
          have hcond : selfId ≠ mid := fun h2 => hms h2.symm
          simp [List.filterMap_cons, hci, hcond, hms]
          simpa [ne_eq, decide_not] using hr
  exact main _ h

/-! ## Round-trip lemmas for the wire codec (claim C1) -/

theorem splitAll_ne_nil (sep : Char) (s : Str) : splitAll sep s ≠ [] := by
  induction s with
  | nil => simp [splitAll]
  | cons c cs ih =>
      by_cases h : c = sep
      · simp [splitAll, h]
      · cases hs : splitAll sep cs <;> simp [splitAll, h, hs]

theorem joinSep_cons_ne (sep : Char) (t : Str) (ts : List Str) (h : ts ≠ []) :
    joinSep sep (t :: ts) = t ++ sep :: joinSep sep ts := by
  cases ts with
  | nil => exact absurd rfl h
  | cons a l => rfl

theorem joinSep_splitAll (s : Str) : joinSep ' ' (splitAll ' ' s) = s := by
  induction s with
  | nil => rfl
  | cons c cs ih =>
      by_cases h : c = ' '
      · subst h
        rw [show splitAll ' ' (' ' :: cs) = [] :: splitAll ' ' cs from by simp [splitAll]]
        rw [joinSep_cons_ne _ _ _ (splitAll_ne_nil _ _)]
        simp [ih]
      · cases hs : splitAll ' ' cs with
        | nil => exact absurd hs (splitAll_ne_nil _ _)
        | cons t ts =>
            rw [show splitAll ' ' (c :: cs) = (c :: t) :: ts from by simp [splitAll, h, hs]]
            cases ts with
            | nil =>
                have ht : t = cs := by
                  rw [hs] at ih
                  simpa [joinSep] using ih
                simp [joinSep, ht]
            | cons t2 ts2 =>
                have ih2 : joinSep ' ' (t :: t2 :: ts2) = cs := by
                  rw [← hs]
                  exact ih
                calc joinSep ' ' ((c :: t) :: t2 :: ts2)
                    = (c :: t) ++ ' ' :: joinSep ' ' (t2 :: ts2) :=
                      joinSep_cons_ne ' ' (c :: t) (t2 :: ts2) (by simp)
                  _ = c :: (t ++ ' ' :: joinSep ' ' (t2 :: ts2)) := rfl
                  _ = c :: joinSep ' ' (t :: t2 :: ts2) := by
                      rw [joinSep_cons_ne ' ' t (t2 :: ts2) (by simp)]
                  _ = c :: cs := by rw [ih2]

theorem mem_splitAll_no_sep (sep : Char) (s : Str) : ∀ t ∈ splitAll sep s, sep ∉ t := by
  induction s with
  | nil =>
      intro t ht
      simp [splitAll] at ht
      subst ht
      simp
  | cons c cs ih =>
      intro t ht
      by_cases h : c = sep
      · simp [splitAll, h] at ht
        rcases ht with ht | ht
        · subst ht; simp
        · exact ih t ht
      · cases hs : splitAll sep cs with
        | nil => exact absurd hs (splitAll_ne_nil _ _)
        | cons t0 ts =>
            simp only [splitAll, h, if_false, hs, ite_false, List.mem_cons] at ht
            rcases ht with ht | ht
            · subst ht
              intro hmem
              rcases List.mem_cons.mp hmem with h1 | h1
              · exact h h1.symm
              · exact ih t0 (by rw [hs]; simp) h1
            · exact ih t (by rw [hs]; simp [ht])

theorem splitn2_fst_no_sep (sep : Char) (s : Str) : sep ∉ (splitn2 sep s).1 := by
  induction s with
  | nil => simp [splitn2]
  | cons c cs ih =>
      by_cases h : c = sep
      · simp [splitn2, h]
      · simp only [splitn2, h, if_false, ite_false]
        intro hmem
        rcases List.mem_cons.mp hmem with h1 | h1
        · exact h h1.symm
        · exact ih h1

theorem splitn2_joinSep (t : Str) (ts : List Str) (h : ' ' ∉ t) :
    splitn2 ' ' (joinSep ' ' (t :: ts)) =
      (t, if ts = [] then none else some (joinSep ' ' ts)) := by
  induction t with
  | nil =>
      cases ts with
      | nil => rfl
      | cons a l =>
          rw [joinSep_cons_ne _ _ _ (by simp)]
          simp [splitn2]
  | cons c t0 ihs =>
      have hc : c ≠ ' ' := fun he => h (by simp [he])
      have ht0 : ' ' ∉ t0 := fun hm => h (by simp [hm])
      have hj : joinSep ' ' ((c :: t0) :: ts) = c :: joinSep ' ' (t0 :: ts) := by
        cases ts with
        | nil => rfl
        | cons a l =>
            rw [joinSep_cons_ne ' ' (c :: t0) (a :: l) (by simp),
              joinSep_cons_ne ' ' t0 (a :: l) (by simp)]
            rfl
      rw [hj]
      simp [splitn2, hc, ihs ht0]

theorem splitAll_append_sep (p r : Str) (h : ' ' ∉ p) :
    splitAll ' ' (p ++ ' ' :: r) = p :: splitAll ' ' r := by
  induction p with
  | nil => simp [splitAll]
  | cons c p0 ih =>
      have hc : c ≠ ' ' := fun he => h (by simp [he])
      have hp0 : ' ' ∉ p0 := fun hm => h (by simp [hm])
      simp [splitAll, hc, ih hp0]

theorem splitAll_joinSep_append (ps : List Str) (s : Str) (h : ∀ p ∈ ps, ' ' ∉ p) :
    splitAll ' ' (joinSep ' ' (ps ++ [s])) = ps ++ splitAll ' ' s := by
  induction ps with
  | nil => simp [joinSep]
  | cons p ps0 ih =>
      have hp := h p (by simp)
      have hrest : ∀ q ∈ ps0, ' ' ∉ q := fun q hq => h q (by simp [hq])
      rw [show (p :: ps0) ++ [s] = p :: (ps0 ++ [s]) from rfl]
      rw [joinSep_cons_ne _ _ _ (by simp)]
      rw [splitAll_append_sep _ _ hp, ih hrest]
      rfl

theorem ppLoop_append (tokens : List Str) : ∀ (params : List Str) (tr : Str) (b : Bool),
    ppLoop tokens params tr b = params ++ ppLoop tokens [] tr b := by
  induction tokens with
  | nil =>
      intro params tr b
      cases b <;> simp [ppLoop]
  | cons t rest ih =>
      intro params tr b
      by_cases hc : charStartsWith ':' t
      · simp only [ppLoop, hc, if_true]
        exact ih params _ _
      · cases b with
        | true =>
            simp only [ppLoop, hc, if_false, Bool.false_eq_true, ite_false, ite_true]
            exact ih params _ _
        | false =>
            simp only [ppLoop, hc, if_false, Bool.false_eq_true, ite_false]
            rw [ih (params ++ [t]) tr false, ih ([] ++ [t]) tr false]
            simp

theorem ppLoop_true (tokens : List Str) : ∀ (params : List Str) (tr : Str),
    ppLoop tokens params tr true = params ++ [ppTrail tr tokens] := by
  induction tokens with
  | nil =>
      intro params tr
      simp [ppLoop, ppTrail]
  | cons t rest ih =>
      intro params tr
      by_cases hc : charStartsWith ':' t
      · simp [ppLoop, ppTrail, hc, ih]
      · simp [ppLoop, ppTrail, hc, ih]

theorem ppTrail_no_colon : ∀ (cs : List Str) (tr : Str),
    (∀ c ∈ cs, charStartsWith ':' c = false) → ppTrail tr cs = tr ++ joinPre cs := by
  intro cs
  induction cs with
  | nil =>
      intro tr _
      simp [ppTrail, joinPre]
  | cons c rest ih =>
      intro tr h
      have hc := h c (by simp)
      simp [ppTrail, hc, joinPre, ih _ (fun x hx => h x (by simp [hx]))]

theorem joinSep_eq_joinPre (cs : List Str) : ∀ (c0 : Str),
    joinSep ' ' (c0 :: cs) = c0 ++ joinPre cs := by
  induction cs with
  | nil =>
      intro c0
      simp [joinSep, joinPre]
  | cons c1 rest ih =>
      intro c0
      rw [joinSep_cons_ne _ _ _ (by simp)]
      simp [joinPre, ih c1]

theorem ppLoop_push (ps : List Str) : ∀ (rest params : List Str) (tr : Str),
    (∀ p ∈ ps, charStartsWith ':' p = false) →
    ppLoop (ps ++ rest) params tr false = ppLoop rest (params ++ ps) tr false := by
  induction ps with
  | nil =>
      intro rest params tr _
      simp
  | cons p ps0 ih =>
      intro rest params tr h
      have hp := h p (by simp)
      simp only [List.cons_append, ppLoop, hp, if_false, Bool.false_eq_true, ite_false,
        List.append_eq]
      rw [ih rest (params ++ [p]) tr (fun q hq => h q (by simp [hq]))]
      simp

theorem parse_params_reconstruct (ps : List Str) (pn : Str)
    (hps : ∀ p ∈ ps, ' ' ∉ p ∧ charStartsWith ':' p = false)
    (hpn : ∀ c ∈ (splitAll ' ' pn).tail, charStartsWith ':' c = false) :
    parse_params (joinSep ' ' (ps ++ [':' :: pn])) = ps ++ [pn] := by
  unfold parse_params
  rw [splitAll_joinSep_append ps (':' :: pn) (fun p hp => (hps p hp).1)]
  cases hs : splitAll ' ' pn with
  | nil => exact absurd hs (splitAll_ne_nil _ _)
  | cons c0 cs =>
      have hsplit : splitAll ' ' (':' :: pn) = (':' :: c0) :: cs := by
        simp [splitAll, hs]
      rw [hsplit]
      rw [ppLoop_push ps ((':' :: c0) :: cs) [] [] (fun p hp => (hps p hp).2)]
      have hcol : charStartsWith ':' (':' :: c0) = true := rfl
      simp only [ppLoop, hcol, if_true, List.nil_append]
      rw [ppLoop_true]
      have hcs : ∀ c ∈ cs, charStartsWith ':' c = false := by
        rw [hs] at hpn
        simpa using hpn
      rw [ppTrail_no_colon cs _ hcs]
      have : (':' :: c0).tail = c0 := rfl
      rw [this, ← joinSep_eq_joinPre, ← hs, joinSep_splitAll]

theorem parse_params_ne_nil (s : Str) : parse_params s ≠ [] := by
  unfold parse_params
  cases hs : splitAll ' ' s with
  | nil => exact absurd hs (splitAll_ne_nil _ _)
  | cons t rest =>
      by_cases hc : charStartsWith ':' t
      · simp [ppLoop, hc, ppLoop_true]
      · simp only [ppLoop, hc, if_false, Bool.false_eq_true, ite_false, List.nil_append]
        rw [ppLoop_append rest [t]]
        simp

theorem ppLoop_false_dropLast (tokens : List Str)
    (htok : ∀ t ∈ tokens, ' ' ∉ t) :
    ∀ p ∈ (ppLoop tokens [] [] false).dropLast,
      ' ' ∉ p ∧ charStartsWith ':' p = false := by
  induction tokens with
  | nil => simp [ppLoop]
  | cons t rest ih =>
      by_cases hc : charStartsWith ':' t
      · simp [ppLoop, hc, ppLoop_true]
      · intro p hp
        rw [show ppLoop (t :: rest) [] [] false = t :: ppLoop rest [] [] false from by
          simp only [ppLoop, hc, if_false, Bool.false_eq_true, ite_false, List.nil_append]
          rw [ppLoop_append rest [t]]
          simp] at hp
        cases hr : ppLoop rest [] [] false with
        | nil => simp [hr] at hp
        | cons x xs =>
            rw [hr, List.dropLast_cons₂, List.mem_cons] at hp
            rcases hp with hp | hp
            · subst hp
              refine ⟨htok _ (by simp), ?_⟩
              simpa using hc
            · have := ih (fun q hq => htok q (by simp [hq])) p
              rw [hr] at this
              exact this hp

theorem parse_params_dropLast (s : Str) :
    ∀ p ∈ (parse_params s).dropLast, ' ' ∉ p ∧ charStartsWith ':' p = false :=
  ppLoop_false_dropLast _ (mem_splitAll_no_sep ' ' s)

theorem paramParts_append (ps : List Str) (pn : Str) :
    paramParts (ps ++ [pn]) = ps ++ [':' :: pn] := by
  induction ps with
  | nil => rfl
  | cons p ps0 ih =>
      cases ps0 with
      | nil => rfl
      | cons q qs =>
          simpa [paramParts] using ih

theorem paramParts_ne_nil {P : List Str} (h : P ≠ []) : paramParts P ≠ [] := by
  cases P with
  | nil => exact absurd rfl h
  | cons p ps =>
      cases ps with
      | nil => simp [paramParts]
      | cons q qs => simp [paramParts]

theorem mkMsg_command_no_space (tags : List (Str × Str)) (src : Option Str) (rest2 : Str) :
    ' ' ∉ (mkMsg tags src rest2).command :=
  splitn2_fst_no_sep ' ' rest2

theorem mkMsg_params_eq (tags : List (Str × Str)) (src : Option Str) (rest2 : Str) :
    (mkMsg tags src rest2).params =
      match (splitn2 ' ' rest2).2 with
      | some ps => parse_params ps
      | none => [] := rfl

theorem mkMsg_params_dropLast (tags : List (Str × Str)) (src : Option Str) (rest2 : Str) :
    ∀ p ∈ (mkMsg tags src rest2).params.dropLast,
      ' ' ∉ p ∧ charStartsWith ':' p = false := by
  intro p hp
  rw [mkMsg_params_eq] at hp
  cases h : (splitn2 ' ' rest2).2 with
  | none =>
      rw [h] at hp
      simp at hp
  | some ps0 =>
      rw [h] at hp
      exact parse_params_dropLast ps0 p hp

theorem mkMsg_command_nil_params (tags : List (Str × Str)) (src : Option Str)
    (line : Str) (hne : line ≠ []) (hcmd : (mkMsg tags src line).command = []) :
    (mkMsg tags src line).params ≠ [] := by
  cases line with
  | nil => exact absurd rfl hne
  | cons c cs =>
      by_cases hc : c = ' '
      · subst hc
        rw [mkMsg_params_eq]
        have hsp : splitn2 ' ' (' ' :: cs) = ([], some cs) := by simp [splitn2]
        rw [hsp]
        exact parse_params_ne_nil cs
      · exfalso
        have : (mkMsg tags src (c :: cs)).command = c :: (splitn2 ' ' cs).1 := by
          show (splitn2 ' ' (c :: cs)).1 = _
          simp [splitn2, hc]
        rw [this] at hcmd
        exact absurd hcmd (by simp)

theorem charStartsWith_splitn2_fst (a : Char) (s : Str)
    (h : charStartsWith a s = false) :
    charStartsWith a (splitn2 ' ' s).1 = false := by
  cases s with
  | nil => rfl
  | cons c cs =>
      by_cases hc : c = ' '
      · subst hc
        have hsp : splitn2 ' ' (' ' :: cs) = ([], some cs) := by simp [splitn2]
        rw [hsp]
        rfl
      · have : (splitn2 ' ' (c :: cs)).1 = c :: (splitn2 ' ' cs).1 := by
          simp [splitn2, hc]
        rw [this]
        simpa [charStartsWith] using h

theorem charStartsWith_joinSep (a : Char) (C : Str) (pp : List Str) (ha : a ≠ ' ')
    (hC : charStartsWith a C = false) :
    charStartsWith a (joinSep ' ' (C :: pp)) = false := by
  cases C with
  | nil =>
      cases pp with
      | nil => rfl
      | cons q qs =>
          rw [joinSep_cons_ne ' ' [] (q :: qs) (by simp)]
          simp [charStartsWith, Ne.symm ha]
  | cons c t =>
      cases pp with
      | nil => exact hC
      | cons q qs =>
          rw [joinSep_cons_ne ' ' (c :: t) (q :: qs) (by simp)]
          simpa [charStartsWith] using hC

theorem joinSep_cons_ne_nil (C : Str) (pp : List Str) (h : C = [] → pp ≠ []) :
    joinSep ' ' (C :: pp) ≠ [] := by
  cases C with
  | nil =>
      cases pp with
      | nil => exact absurd rfl (h rfl)
      | cons q qs =>
          rw [joinSep_cons_ne ' ' [] (q :: qs) (by simp)]
          simp
  | cons c t =>
      cases pp with
      | nil => simp [joinSep]
      | cons q qs =>
          rw [joinSep_cons_ne ' ' (c :: t) (q :: qs) (by simp)]
          simp

theorem mkMsg_of_joinSep (src : Option Str) (command : Str) (params : List Str)
    (hcmd : ' ' ∉ command)
    (hps : ∀ p ∈ params.dropLast, ' ' ∉ p ∧ charStartsWith ':' p = false)
    (htr : ∀ c ∈ (splitAll ' ' (params.getLastD [])).tail, charStartsWith ':' c = false) :
    mkMsg [] src (joinSep ' ' (command :: paramParts params)) =
      ⟨[], src, command, params⟩ := by
  rcases List.eq_nil_or_concat params with hnil | ⟨ps, pn, hconcat⟩
  · subst hnil
    have hsp : splitn2 ' ' (joinSep ' ' [command]) = (command, none) := by
      simpa using splitn2_joinSep command [] hcmd
    unfold mkMsg
    rw [show paramParts [] = [] from rfl]
    rw [hsp]
  · subst hconcat
    simp only [List.concat_eq_append] at hps htr ⊢
    rw [paramParts_append]
    have hne2 : ps ++ [':' :: pn] ≠ ([] : List Str) := by simp
    have hsp := splitn2_joinSep command (ps ++ [':' :: pn]) hcmd
    rw [if_neg hne2] at hsp
    have hps2 : ∀ p ∈ ps, ' ' ∉ p ∧ charStartsWith ':' p = false := by
      intro p hp
      exact hps p (by simpa [List.dropLast_concat] using hp)
    have hlast : (ps ++ [pn]).getLastD ([] : Str) = pn := by simp
    have htr2 : ∀ c ∈ (splitAll ' ' pn).tail, charStartsWith ':' c = false := by
      rw [hlast] at htr
      exact htr
    unfold mkMsg
    rw [hsp]
    show (⟨[], src, command, parse_params (joinSep ' ' (ps ++ [':' :: pn]))⟩ : TS6Message) =
      ⟨[], src, command, ps ++ [pn]⟩
    rw [parse_params_reconstruct ps pn hps2 htr2]

theorem reparse_src (src C : Str) (P : List Str)
    (hsrc : ' ' ∉ src) (hcmd : ' ' ∉ C)
    (hps : ∀ p ∈ P.dropLast, ' ' ∉ p ∧ charStartsWith ':' p = false)
    (htr : ∀ c ∈ (splitAll ' ' (P.getLastD [])).tail, charStartsWith ':' c = false) :
    parse_message (joinSep ' ' ((':' :: src) :: C :: paramParts P)) =
      .ok ⟨[], some src, C, P⟩ := by
  have hOexp : joinSep ' ' ((':' :: src) :: C :: paramParts P) =
      (':' :: src) ++ ' ' :: joinSep ' ' (C :: paramParts P) :=
    joinSep_cons_ne ' ' (':' :: src) (C :: paramParts P) (by simp)
  have hOne : joinSep ' ' ((':' :: src) :: C :: paramParts P) ≠ [] := by
    rw [hOexp]
    simp
  have hOat : charStartsWith '@' (joinSep ' ' ((':' :: src) :: C :: paramParts P)) = false := by
    rw [hOexp]
    rfl
  have hOcol : charStartsWith ':' (joinSep ' ' ((':' :: src) :: C :: paramParts P)) = true := by
    rw [hOexp]
    rfl
  have hspO : splitn2 ' ' (joinSep ' ' ((':' :: src) :: C :: paramParts P)) =
      (':' :: src, some (joinSep ' ' (C :: paramParts P))) := by
    have hfree : ' ' ∉ ':' :: src := by
      intro hmem
      rcases List.mem_cons.mp hmem with h1 | h1
      · exact absurd h1 (by decide)
      · exact hsrc h1
    simpa using splitn2_joinSep (':' :: src) (C :: paramParts P) hfree
  unfold parse_message
  rw [if_neg hOne, if_neg (by simp [hOat])]
  unfold parseAfterTags
  rw [if_pos hOcol, hspO]
  exact congrArg Except.ok (mkMsg_of_joinSep (some src) C P hcmd hps htr)

theorem reparse_nosrc (C : Str) (P : List Str)
    (hcmd : ' ' ∉ C)
    (hCnil : C = [] → P ≠ [])
    (hCat : charStartsWith '@' C = false)
    (hCcol : charStartsWith ':' C = false)
    (hps : ∀ p ∈ P.dropLast, ' ' ∉ p ∧ charStartsWith ':' p = false)
    (htr : ∀ c ∈ (splitAll ' ' (P.getLastD [])).tail, charStartsWith ':' c = false) :
    parse_message (joinSep ' ' (C :: paramParts P)) = .ok ⟨[], none, C, P⟩ := by
  have hpp : C = [] → paramParts P ≠ [] := fun h => paramParts_ne_nil (hCnil h)
  have hOne : joinSep ' ' (C :: paramParts P) ≠ [] := joinSep_cons_ne_nil _ _ hpp
  have hOat : charStartsWith '@' (joinSep ' ' (C :: paramParts P)) = false :=
    charStartsWith_joinSep '@' C _ (by decide) hCat
  have hOcol : charStartsWith ':' (joinSep ' ' (C :: paramParts P)) = false :=
    charStartsWith_joinSep ':' C _ (by decide) hCcol
  unfold parse_message
  rw [if_neg hOne, if_neg (by simp [hOat])]
  unfold parseAfterTags
  rw [if_neg (by simp [hOcol])]
  rw [mkMsg_of_joinSep none C P hcmd hps htr]

theorem paramsSub_applyOp {ch : Channel} (h : ParamsSubModes ch) (op : ChanOp) :
    ParamsSubModes (applyOp ch op) := by
  cases op with
  | addMember id => exact h
  | removeMember id => exact h
  | addBan m s n => exact h
  | removeBan m => exact h
  | setTopic t s n => exact h
  | setMode m p a =>
      cases a with
      | false =>
          intro e he
          obtain ⟨hmem, hne⟩ := mem_cremove he
          exact mem_sremove (h e hmem) hne
      | true =>
          cases p with
          | none =>
              intro e he
              exact mem_sinsert_of_mem m (h e he)
          | some v =>
              intro e he
              rcases mem_cinsert he with h1 | h1
              · subst h1
                exact mem_sinsert_self m ch.modes
              · exact mem_sinsert_of_mem m (h e h1)

/-! ## Claim theorems -/

/-- Claim C1 counterexample: `to_string` never emits tags, so the
tagged line loses its tag map on the round trip; and in a trailing
parameter containing space-then-colon, the reparse strips the colon and
the space, so even an untagged accepted line fails the round trip. -/
theorem claim_C1_counterexample :
    parse_message (("@a=b PING x").toList) =
      .ok ⟨[((("a").toList), ("b").toList)], none, ("PING").toList, [("x").toList]⟩
  ∧ TS6Message.to_string
      ⟨[((("a").toList), ("b").toList)], none, ("PING").toList, [("x").toList]⟩ =
      ("PING :x").toList
  ∧ parse_message (("PING :x").toList) =
      .ok ⟨[], none, ("PING").toList, [("x").toList]⟩
  ∧ (⟨[], none, ("PING").toList, [("x").toList]⟩ : TS6Message) ≠
      ⟨[((("a").toList), ("b").toList)], none, ("PING").toList, [("x").toList]⟩
  ∧ parse_message (("CMD :a  ::x").toList) =
      .ok ⟨[], none, ("CMD").toList, [("a :x").toList]⟩
  ∧ TS6Message.to_string ⟨[], none, ("CMD").toList, [("a :x").toList]⟩ =
      ("CMD :a :x").toList
  ∧ parse_message (("CMD :a :x").toList) =
      .ok ⟨[], none, ("CMD").toList, [("ax").toList]⟩
  ∧ (("ax").toList) ≠ (("a :x").toList) := by
  refine ⟨rfl, by decide, rfl, by decide, rfl, by decide, rfl, by decide⟩

/-- Claim C1 (amended): serialization omits tags, so round-trip
identity holds on the canonical form exactly for accepted lines without
a tag block whose trailing parameter has no space-then-colon chunk: for
every such line, parsing, serializing with `to_string` and parsing
again yields the same message (tags empty, source, command and params
preserved). -/
theorem claim_C1_amended : ∀ (line : Str) (m : TS6Message),
    line ≠ [] →
    charStartsWith '@' line = false →
    parse_message line = .ok m →
    (∀ c ∈ (splitAll ' ' (m.params.getLastD [])).tail, charStartsWith ':' c = false) →
    parse_message (TS6Message.to_string m) = .ok m := by
  intro line m hne hat hp htr
  have hp2 : parseAfterTags [] line = .ok m := by
    unfold parse_message at hp
    rw [if_neg hne, if_neg (by simp [hat])] at hp
    exact hp
  by_cases hcol : charStartsWith ':' line
  · obtain ⟨l2, rfl⟩ : ∃ l2, line = ':' :: l2 := by
      cases line with
      | nil => exact absurd rfl hne
      | cons c cs =>
          have hc : c = ':' := by simpa [charStartsWith] using hcol
          exact ⟨cs, by rw [hc]⟩
    have hsp : splitn2 ' ' (':' :: l2) =
        (':' :: (splitn2 ' ' l2).1, (splitn2 ' ' l2).2) := by
      simp [splitn2]
    unfold parseAfterTags at hp2
    rw [if_pos hcol, hsp] at hp2
    cases hr2 : (splitn2 ' ' l2).2 with
    | none =>
        rw [hr2] at hp2
        simp at hp2
    | some r2 =>
        rw [hr2] at hp2
        have hm : mkMsg [] (some (splitn2 ' ' l2).1) r2 = m :=
          Except.ok.inj hp2
        subst hm
        have hts : TS6Message.to_string (mkMsg [] (some (splitn2 ' ' l2).1) r2) =
            joinSep ' ' ((':' :: (splitn2 ' ' l2).1) ::
              (mkMsg [] (some (splitn2 ' ' l2).1) r2).command ::
              paramParts (mkMsg [] (some (splitn2 ' ' l2).1) r2).params) := rfl
        rw [hts]
        exact reparse_src _ _ _ (splitn2_fst_no_sep ' ' l2)
          (mkMsg_command_no_space _ _ _) (mkMsg_params_dropLast _ _ _) htr
  · unfold parseAfterTags at hp2
    rw [if_neg hcol] at hp2
    have hm : mkMsg [] none line = m := Except.ok.inj hp2
    subst hm
    have hts : TS6Message.to_string (mkMsg [] none line) =
        joinSep ' ' ((mkMsg [] none line).command ::
          paramParts (mkMsg [] none line).params) := rfl
    rw [hts]
    exact reparse_nosrc _ _ (mkMsg_command_no_space _ _ _)
      (mkMsg_command_nil_params _ _ _ hne)
      (charStartsWith_splitn2_fst '@' line hat)
      (charStartsWith_splitn2_fst ':' line (by simpa using hcol))
      (mkMsg_params_dropLast _ _ _) htr

/-- Claim C1 witness: a concrete source-prefixed line round-trips. -/
theorem claim_C1_witness :
    parse_message (TS6Message.to_string
      ⟨[], some (("alice!a@h").toList), ("PRIVMSG").toList,
        [("#room").toList, ("hello world").toList]⟩) =
      .ok ⟨[], some (("alice!a@h").toList), ("PRIVMSG").toList,
        [("#room").toList, ("hello world").toList]⟩ :=
  claim_C1_amended ((":alice!a@h PRIVMSG #room :hello world").toList)
    ⟨[], some (("alice!a@h").toList), ("PRIVMSG").toList,
      [("#room").toList, ("hello world").toList]⟩
    (by decide) (by decide) (by rfl) (by decide)

/-- Claim C2 (code_bug): on the `+t` channel `#test`, the non-operator
member bob sends `TOPIC #test :hi`; `handle_topic` changes the topic
from none to `hi` and emits no numeric 482, contradicting the spec and
the intent of the repository test `test_channel_modes` (the code never
performs the operator check). -/
theorem claim_C2_code_behavior :
    roomT.has_mode 't' none = true
  ∧ roomT.has_mode 'o' (some (("bob").toList)) = false
  ∧ (2 ∈ roomT.members)
  ∧ (alookup (("#test").toList) stC2.channels).map (fun ch => ch.topic) = some none
  ∧ c2_topic_after = some (some (("hi").toList))
  ∧ c2_replied_482 = false := by
  refine ⟨by decide, by decide, by decide, by decide, by decide, by decide⟩

/-- Claim C3 counterexample: the dispatcher of src/client/message.rs
routes JOIN to its handler with no registration gate at all, and the
dispatcher of src/client/mod.rs rejects pre-registration TOPIC, QUIT and
PASS with a Protocol error rather than numeric 451. -/
theorem claim_C3_counterexample :
    dispatch_message false (("JOIN").toList) = .handler (("JOIN").toList)
  ∧ dispatch_mod false (("TOPIC").toList) = .protocolError (("Not registered").toList)
  ∧ dispatch_mod false (("QUIT").toList) = .protocolError (("Not registered").toList)
  ∧ dispatch_mod false (("PASS").toList) = .protocolError (("Not registered").toList) := by
  refine ⟨by decide, by decide, by decide, by decide⟩

/-- Claim C3 (amended): before registration the src/client/mod.rs
dispatcher executes only CAP, PING, PONG, NICK and USER and rejects
every other command — PASS and QUIT included — with the Protocol error
Not registered, never numeric 451; and the src/client/message.rs
dispatcher applies no registration gate: outside CAP negotiation every
known command is routed straight to its handler. -/
theorem claim_C3_amended :
    (∀ command : Str,
        command ∉ [("CAP").toList, ("PING").toList, ("PONG").toList,
          ("NICK").toList, ("USER").toList] →
        dispatch_mod false command = .protocolError (("Not registered").toList))
  ∧ (∀ command : Str, command ≠ ("CAP").toList →
        command ∈ [("NICK").toList, ("USER").toList, ("QUIT").toList, ("JOIN").toList,
          ("PART").toList, ("WHOIS").toList, ("PING").toList, ("PONG").toList,
          ("MODE").toList, ("PRIVMSG").toList, ("NOTICE").toList, ("MOTD").toList,
          ("LUSERS").toList, ("VERSION").toList, ("ADMIN").toList, ("INFO").toList,
          ("WHO").toList] →
        dispatch_message false command = .handler command) := by
  constructor
  · intro command h
    simp [not_or] at h
    obtain ⟨h1, h2, h3, h4, h5⟩ := h
    unfold dispatch_mod
    simp [h1, h2, h3, h4, h5]
  · intro command hcap hmem
    fin_cases hmem <;> decide

theorem claim_C3_witness :
    dispatch_mod false (("WHO").toList) = .protocolError (("Not registered").toList)
  ∧ dispatch_message false (("PRIVMSG").toList) = .handler (("PRIVMSG").toList) :=
  ⟨claim_C3_amended.1 (("WHO").toList) (by decide),
   claim_C3_amended.2 (("PRIVMSG").toList) (by decide) (by decide)⟩

/-- Claim C4 counterexample: in `stC4` alice (id 1) is the sole member
of `#room`; after `remove_client` completes, the member set of `#room`
still contains the dead id, refuting the claim that no channel member
set contains it. -/
theorem claim_C4_counterexample :
    1 ∈ get_channel_members (remove_client stC4 1) (("#room").toList) := by
  decide

/-- Claim C4 (amended): after `remove_client`, `find_client_by_nick` of
the removed session's nickname returns none — the stale `nickname_map`
entry no longer resolves through the client map — but `remove_client`
purges neither the nickname map nor any channel member set. -/
theorem claim_C4_amended : ∀ (st : ServerState) (nick : Str) (id : Nat),
    alookup (toLowerStr nick) st.nickname_map = some id →
      find_client_by_nick (remove_client st id) nick = none
    ∧ (remove_client st id).channels = st.channels
    ∧ (remove_client st id).nickname_map = st.nickname_map := by
  intro st nick id h
  refine ⟨?_, rfl, rfl⟩
  unfold find_client_by_nick remove_client
  simp [h, nlookup_nremove]

theorem claim_C4_witness :
    find_client_by_nick (remove_client stC4 1) (("alice").toList) = none
  ∧ (remove_client stC4 1).channels = stC4.channels
  ∧ (remove_client stC4 1).nickname_map = stC4.nickname_map :=
  claim_C4_amended stC4 (("alice").toList) 1 (by decide)

/-- Claim C5 counterexample: a successful `register_nickname` for alice
stores the reservation in `nickname_map`, yet `check_nickname` — which
reads the distinct, never-written `nicknames` field — still reports the
name available while `register_nickname` itself refuses it; the
pre-check does not consult the map `register_nickname` updates. -/
theorem claim_C5_counterexample :
    register_nickname ⟨[1], [(1, aliceC)], [], [], []⟩ (("alice").toList) 1 = .ok stC5
  ∧ check_nickname stC5 (("alice").toList) = true
  ∧ register_nickname stC5 (("alice").toList) 2 =
      .error (("Nickname is already in use").toList)
  ∧ stC5.nicknames = [] := by
  refine ⟨rfl, by decide, rfl, rfl⟩

/-- Claim C5 (amended): while a case-folded nickname is reserved in
`nickname_map`, `register_nickname` fails with the already-in-use error
and `handle_nick` (for a fresh client) replies 433 Nickname is already
in use through that failure; but the availability pre-check
`check_nickname` consults the separate `nicknames` map, not the one
`register_nickname` updates. -/
theorem claim_C5_amended : ∀ (st : ServerState) (id : Nat) (c : ClientInfo) (nick : Str)
    (j : Nat) (server_name date_str : Str),
    c.cap_negotiating = false → c.nickname = none →
    (nick.all fun ch => ch.isAlphanum || ch = '_' || ch = '-') = true →
    alookup (toLowerStr nick) st.nickname_map = some j →
      register_nickname st nick id = .error (("Nickname is already in use").toList)
    ∧ handle_nick st id c ⟨[], none, ("NICK").toList, [nick]⟩ server_name date_str =
        .ok (st, c, [.numeric 433 [nick, ("Nickname is already in use").toList]])
    ∧ check_nickname st nick = !(alookup (toLowerStr nick) st.nicknames).isSome := by
  intro st id c nick j server_name date_str hcap hnick hvalid hmap
  have hreg : register_nickname st nick id =
      .error (("Nickname is already in use").toList) := by
    unfold register_nickname
    simp [hmap]
  refine ⟨hreg, ?_, rfl⟩
  unfold handle_nick
  by_cases hcn : check_nickname st nick
  · simp [hcap, hvalid, hnick, hcn, hreg]
  · simp [hcap, hvalid, hcn]

theorem claim_C5_witness :
    register_nickname stC5 (("ALICE").toList) 2 =
      .error (("Nickname is already in use").toList)
  ∧ handle_nick stC5 2 freshC ⟨[], none, ("NICK").toList, [("ALICE").toList]⟩
      (("srv").toList) (("d").toList) =
      .ok (stC5, freshC,
        [.numeric 433 [("ALICE").toList, ("Nickname is already in use").toList]])
  ∧ check_nickname stC5 (("ALICE").toList) =
      !(alookup (toLowerStr (("ALICE").toList)) stC5.nicknames).isSome :=
  claim_C5_amended stC5 2 freshC (("ALICE").toList) 1 (("srv").toList) (("d").toList)
    rfl rfl (by decide) (by decide)

/-- Claim C6 counterexample: numeric 253 is never emitted by
`complete_registration`, so the emitted sequence is not the claimed
001..376 list containing the whole 251-255 range. -/
theorem claim_C6_counterexample :
    253 ∉ registration_numeric_codes aliceC (("srv").toList) (("d").toList)
  ∧ registration_numeric_codes aliceC (("srv").toList) (("d").toList) ≠
      [1, 2, 3, 4, 5, 251, 252, 253, 254, 255, 265, 266, 375, 372, 376] := by
  decide

/-- Claim C6 (amended): every completing registration emits exactly the
numerics 001, 002, 003, 004, 005, 251, 252, 254, 255, 265, 266, 375,
372, 376 in that fixed order — numeric 253 is skipped. -/
theorem claim_C6_amended : ∀ (c : ClientInfo) (server_name date_str : Str),
    registration_numeric_codes c server_name date_str =
      [1, 2, 3, 4, 5, 251, 252, 254, 255, 265, 266, 375, 372, 376] := by
  intro c server_name date_str
  rfl

/-- Claim C7 (confirmed): `check_access` evaluates D-line, K-line,
G-line, then requires an I-line; each match rejects with an error
carrying that line's reason, a missing I-line rejects with No matching
I-line, and a timed line is expired exactly when set_time + duration is
before now, duration 0 never expiring. -/
theorem claim_C7_confirmed : ∀ (cfg : AccessConfig) (c : ClientInfo) (now : Int),
    (∀ d, is_dlined cfg c.get_ip now = some d →
        check_access cfg c now = .error ((("D-lined: ").toList) ++ d.reason))
  ∧ (∀ k, is_dlined cfg c.get_ip now = none →
        is_klined cfg c.get_mask now = some k →
        check_access cfg c now = .error ((("K-lined: ").toList) ++ k.reason))
  ∧ (∀ g, is_dlined cfg c.get_ip now = none →
        is_klined cfg c.get_mask now = none →
        is_glined cfg c.get_mask now = some g →
        check_access cfg c now = .error ((("G-lined: ").toList) ++ g.reason))
  ∧ (is_dlined cfg c.get_ip now = none →
        is_klined cfg c.get_mask now = none →
        is_glined cfg c.get_mask now = none →
        has_iline cfg c.get_mask = false →
        check_access cfg c now = .error (("No matching I-line").toList))
  ∧ (is_dlined cfg c.get_ip now = none →
        is_klined cfg c.get_mask now = none →
        is_glined cfg c.get_mask now = none →
        has_iline cfg c.get_mask = true →
        check_access cfg c now = .ok ())
  ∧ (∀ set_time duration : Int,
        is_ban_expired set_time duration now = true ↔
          duration ≠ 0 ∧ set_time + duration < now) := by
  intro cfg c now
  refine ⟨?_, ?_, ?_, ?_, ?_, ?_⟩
  · intro d hd
    unfold check_access
    simp [hd]
  · intro k hd hk
    unfold check_access
    simp [hd, hk]
  · intro g hd hk hg
    unfold check_access
    simp [hd, hk, hg]
  · intro hd hk hg hi
    unfold check_access
    simp [hd, hk, hg, hi]
  · intro hd hk hg hi
    unfold check_access
    simp [hd, hk, hg, hi]
  · intro set_time duration
    unfold is_ban_expired
    by_cases h0 : duration = 0
    · simp [h0]
    · simp [h0]
      omega

theorem claim_C7_witness :
    check_access cfg7 c7client 5 = .error ((("D-lined: ").toList) ++ dl7.reason) :=
  (claim_C7_confirmed cfg7 c7client 5).1 dl7 (by rfl)

/-- Claim C8 (confirmed): for a registered sender, a channel PRIVMSG
without membership replies 442 and delivers nothing; a user PRIVMSG to
an unknown nickname replies 401; a channel delivery reaches every
member except the sender (all members resolving to sessions), carrying
source nick!user@host of the sender. -/
theorem claim_C8_confirmed : ∀ (st : ServerState) (selfId : Nat) (c : ClientInfo)
    (cmd target text : Str),
    c.registered = true →
    (charStartsWith '#' target = true →
        check_channel_membership st target selfId = false →
        handle_privmsg st selfId c ⟨[], none, cmd, [target, text]⟩ =
          .ok [.numeric 442 [target, ("You\x27re not on that channel").toList]])
  ∧ (charStartsWith '#' target = false →
        find_client_by_nick st target = none →
        handle_privmsg st selfId c ⟨[], none, cmd, [target, text]⟩ =
          .ok [.numeric 401 [target, ("No such nick/channel").toList]])
  ∧ (charStartsWith '#' target = true →
        check_channel_membership st target selfId = true →
        (∀ mid ∈ get_channel_members st target, (get_client st mid).isSome) →
        handle_privmsg st selfId c ⟨[], none, cmd, [target, text]⟩ =
          .ok (((get_channel_members st target).filter fun mid => mid ≠ selfId).map
            fun mid => Effect.deliver mid
              (TS6Message.with_source c.prefixMask (("PRIVMSG").toList) [target, text])))
  ∧ (∀ nick user, c.nickname = some nick → c.username = some user →
        c.prefixMask = nick ++ '!' :: user ++ '@' :: c.hostname) := by
  intro st selfId c cmd target text hreg
  refine ⟨?_, ?_, ?_, ?_⟩
  · intro h1 h2
    unfold handle_privmsg
    simp [hreg, h1, h2]
  · intro h1 h2
    unfold handle_privmsg
    simp [hreg, h1, h2]
  · intro h1 h2 hall
    unfold handle_privmsg
    simp [hreg, h1, h2, broadcast_all_present st target _ selfId hall, List.map_map,
      Function.comp]
  · intro nick user hn hu
    unfold ClientInfo.prefixMask
    simp [hn, hu]

theorem claim_C8_witness :
    handle_privmsg stC2 1 aliceC
      ⟨[], none, ("PRIVMSG").toList, [("#test").toList, ("hello").toList]⟩ =
      .ok (((get_channel_members stC2 (("#test").toList)).filter fun mid => mid ≠ 1).map
        fun mid => Effect.deliver mid
          (TS6Message.with_source aliceC.prefixMask (("PRIVMSG").toList)
            [("#test").toList, ("hello").toList])) :=
  ((claim_C8_confirmed stC2 1 aliceC (("PRIVMSG").toList) (("#test").toList)
      (("hello").toList) (by decide)).2.2.1 (by decide) (by decide)
    (by decide))

/-- Claim C9 counterexample: after the creator joins the fresh channel,
the operator grant is stored in the channel mode set itself, so the 324
mode string contains `o` and is not exactly `+nt`. -/
theorem claim_C9_counterexample :
    ('o' ∈ room9.modes) ∧ mode_query_reply room9 ≠ ("+nt").toList := by
  decide

/-- Claim C9 (amended): a newly created channel has exactly the modes n
and t; but the first join routes the creator's +o through
`Channel::set_mode` on the same mode set, so afterwards the mode set is
n, t, o with the nickname stored as the o parameter, and the 324 reply
is a plus sign followed by all three flags (in the set's iteration
order) — not exactly `+nt`. -/
theorem claim_C9_amended : ∀ (name nick : Str) (now selfId : Nat),
    (Channel.new name now).modes = ['n', 't']
  ∧ (Channel.new name now).mode_params = []
  ∧ (join_first_grant (Channel.new name now) selfId nick).modes = ['n', 't', 'o']
  ∧ clookup 'o' (join_first_grant (Channel.new name now) selfId nick).mode_params =
      some nick
  ∧ mode_query_reply (join_first_grant (Channel.new name now) selfId nick) =
      '+' :: 'n' :: 't' :: 'o' :: [] := by
  intro name nick now selfId
  exact ⟨rfl, rfl, rfl, rfl, rfl⟩

/-- Claim C10 (confirmed): in every channel state reachable from
`Channel::new` by the public operations, every mode character holding
an entry in the parameter map is present in the mode set. -/
theorem claim_C10_confirmed : ∀ (name : Str) (now : Nat) (ops : List ChanOp),
    ParamsSubModes (applyOps (Channel.new name now) ops) := by
  intro name now ops
  have hnew : ParamsSubModes (Channel.new name now) := by
    intro e he
    simp [Channel.new, Channel.set_mode, sinsert, cinsert] at he
  suffices hgen : ∀ (l : List ChanOp) (ch : Channel),
      ParamsSubModes ch → ParamsSubModes (applyOps ch l) from hgen ops _ hnew
  intro l
  induction l with
  | nil => intro ch h; exact h
  | cons op rest ih => intro ch h; exact ih _ (paramsSub_applyOp h op)

theorem claim_C10_witness :
    'k' ∈ (applyOps (Channel.new (("#c").toList) 0)
      [.setMode 'k' (some (("secret").toList)) true]).modes :=
  claim_C10_confirmed (("#c").toList) 0 [.setMode 'k' (some (("secret").toList)) true]
    ('k', ("secret").toList) (by decide)

end Clandestine
